import Mathlib

/-!
Verification of the salon_ibargo service (src/salon_ibargo plus src/main.py)
against its natural-language specification.

The development shallowly embeds the Python source:
* `normalize_visit_datetime_pst` (salon_ibargo_ai_utils.py, lines 112-242)
  becomes `normalize`, a total function from the outcome of the external
  generation call to `Except PyErr NormResult` (a Python exception escaping
  the function is modelled as `.error`).
* `transcript_to_single_line` (lines 58-71) becomes a pure function on turns.
* `handle_salon_after_call` (salon_ibargo_after_call_handler.py) and
  `extract_base_fields` (salon_ibargo_actions.py) are embedded likewise.
* Python's `datetime.strptime`/`strftime`/`isoformat` are modelled on ASCII
  strings, following the CPython `_strptime` regular expressions
  (4-digit year, 1-2 digit month/day/hour/minute, calendar validity enforced
  by the datetime constructor).  `ZoneInfo("America/Los_Angeles")` is an
  external time-zone database; the embedding abstracts it as a UTC-offset
  function argument `tzoff`, and `laOffset` instantiates it with the US
  Pacific rule in force since 2007 (the era of every reference date the
  service works with).
-/

namespace SalonIbargo

/-- JSON values as produced by Python's `json.loads`: null, booleans, numbers
(modelled as integers), strings, arrays, and objects.  A `jobj` carries the
entries of the parsed dict (keys unique, as a dict has). -/
inductive JValue where
  | jnull
  | jbool (b : Bool)
  | jnum (n : Int)
  | jstr (s : String)
  | jarr (elems : List JValue)
  | jobj (entries : List (String × JValue))

/-- Lookup of a key in the entries of a parsed JSON object. -/
def jfind (entries : List (String × JValue)) (k : String) : Option JValue :=
  match entries with
  | [] => none
  | (k₀, v) :: rest => if k₀ = k then some v else jfind rest k

/-- Python `dict.get(k)`: `None` (here `jnull`) when the key is absent. -/
def pyGet (entries : List (String × JValue)) (k : String) : JValue :=
  (jfind entries k).getD .jnull

/-- Python `dict.get(k, default)`. -/
def pyGetD (entries : List (String × JValue)) (k : String) (d : JValue) : JValue :=
  (jfind entries k).getD d

/-- Python `v == s` for a string literal `s`: true exactly when `v` is that
string (no other JSON value compares equal to a non-empty string). -/
def jeqStr (v : JValue) (s : String) : Bool :=
  match v with
  | .jstr t => t == s
  | _ => false

/-- Python truthiness of a JSON-derived value. -/
def jtruthy (v : JValue) : Bool :=
  match v with
  | .jnull => false
  | .jbool b => b
  | .jnum n => n != 0
  | .jstr s => s != ""
  | .jarr xs => !xs.isEmpty
  | .jobj kvs => !kvs.isEmpty

/-- Python exceptions that the embedded code can let escape. -/
inductive PyErr where
  | keyError (key : String)
  | attributeError
  | typeError
  | valueError
  | httpException (status : Nat) (detail : String)
deriving DecidableEq, Repr

/-- HTTP status that an escaped exception produces at the boundary:
`fastapi.HTTPException` is rendered with its own status code, and the
global handler in main.py (lines 112-118) turns every other exception into
a 500 internal_server_error response. -/
def httpStatusOf (e : PyErr) : Nat :=
  match e with
  | .httpException status _ => status
  | _ => 500

/-! ## Characters and digits (ASCII model of the CPython strptime regexes) -/

/-- The decimal digit character for `n < 10`. -/
def digitChar (n : Nat) : Char := Char.ofNat (48 + n)

/-- Numeric value of a digit character. -/
def charVal (c : Char) : Nat := c.toNat - 48

/-- ASCII decimal digit test (model of the `\d` character class on the
ASCII inputs this code handles). -/
def isDigitChar (c : Char) : Bool := Nat.ble 48 c.toNat && Nat.ble c.toNat 57

/-- Longest digit run at the head of the list, with the rest. -/
def spanDigits : List Char → List Char × List Char
  | [] => ([], [])
  | c :: cs =>
      if isDigitChar c then
        let p := spanDigits cs
        (c :: p.1, p.2)
      else ([], c :: cs)

/-- Value of a big-endian digit string. -/
def digitsVal (l : List Char) : Nat :=
  l.foldl (fun a c => 10 * a + charVal c) 0

/-- Two zero-padded decimal digits (strftime `%m`/`%d`/`%H`/`%M`/`%S` for
values below 100). -/
def pad2Chars (n : Nat) : List Char := [digitChar (n / 10), digitChar (n % 10)]

/-- Four zero-padded decimal digits (strftime `%Y` for years up to 9999,
as documented in the Python strftime format table and as `isoformat`
renders years). -/
def pad4Chars (n : Nat) : List Char :=
  [digitChar (n / 1000), digitChar (n / 100 % 10), digitChar (n / 10 % 10),
   digitChar (n % 10)]

/-! ## Calendar -/

/-- Gregorian leap-year rule (as implemented by Python `datetime.date`). -/
def isLeap (y : Nat) : Bool := decide (y % 4 = 0 ∧ (y % 100 ≠ 0 ∨ y % 400 = 0))

/-- Days in a month of a given year (as enforced by the `datetime`
constructor that `strptime` calls). -/
def daysInMonth (y m : Nat) : Nat :=
  match m with
  | 1 => 31
  | 2 => if isLeap y then 29 else 28
  | 3 => 31
  | 4 => 30
  | 5 => 31
  | 6 => 30
  | 7 => 31
  | 8 => 31
  | 9 => 30
  | 10 => 31
  | 11 => 30
  | 12 => 31
  | _ => 0

/-- Cumulative day count before month `m` in a non-leap year. -/
def cumDays (m : Nat) : Nat :=
  [0, 31, 59, 90, 120, 151, 181, 212, 243, 273, 304, 334].getD (m - 1) 0

/-- Days elapsed since 0001-01-01 in the proleptic Gregorian calendar
(`datetime.toordinal() - 1`). -/
def daysFromCivil (y m d : Nat) : Nat :=
  let py := y - 1
  365 * py + (py / 4 - py / 100 + py / 400) + cumDays m +
    (if 2 < m ∧ isLeap y then 1 else 0) + (d - 1)

/-- Day of week, Sunday = 0 (0001-01-01 was a Monday). -/
def dayOfWeek (y m d : Nat) : Nat := (daysFromCivil y m d + 1) % 7

/-- Day of month of the first Sunday of month `m` of year `y`. -/
def firstSunday (y m : Nat) : Nat := 1 + (7 - dayOfWeek y m 1) % 7

/-- UTC offset in seconds of `ZoneInfo("America/Los_Angeles")` at the given
local wall-clock time, under the US daylight-saving rule in force since
2007: daylight time (-07:00) from the second Sunday of March at 02:00 to
the first Sunday of November at 02:00, standard time (-08:00) otherwise;
gap times resolve to the pre-transition offset and ambiguous times to the
first occurrence (`fold=0`, which is what `replace(tzinfo=PST)` produces). -/
def laOffset (y m d H _Mi : Nat) : Int :=
  let ssm := firstSunday y 3 + 7
  let fsn := firstSunday y 11
  let dst :=
    (3 < m ∧ m < 11) ∨
    (m = 3 ∧ (ssm < d ∨ (d = ssm ∧ 3 ≤ H))) ∨
    (m = 11 ∧ (d < fsn ∨ (d = fsn ∧ H < 2)))
  if dst then -25200 else -28800

/-! ## strptime models -/

/-- Model of `datetime.strptime(s, "%Y-%m-%d")` as a parser: the CPython
`_strptime` regexes require exactly four ASCII digits for `%Y` and one or
two digits for `%m` (value 1-12) and `%d`, the whole string consumed, and
the `datetime` constructor then enforces year at least 1 and day within the
month.  Returns the `(year, month, day)` components on success. -/
def parseDateChars (l : List Char) : Option (Nat × Nat × Nat) :=
  let p1 := spanDigits l
  match p1.2 with
  | sep1 :: r2 =>
    let p2 := spanDigits r2
    match p2.2 with
    | sep2 :: r4 =>
      let p3 := spanDigits r4
      if p1.1.length = 4 ∧ sep1 = '-' ∧ sep2 = '-' ∧
          1 ≤ p2.1.length ∧ p2.1.length ≤ 2 ∧ 1 ≤ digitsVal p2.1 ∧
          digitsVal p2.1 ≤ 12 ∧
          p3.2 = [] ∧ 1 ≤ p3.1.length ∧ p3.1.length ≤ 2 ∧ 1 ≤ digitsVal p3.1 ∧
          digitsVal p3.1 ≤ daysInMonth (digitsVal p1.1) (digitsVal p2.1) ∧
          1 ≤ digitsVal p1.1 then
        some (digitsVal p1.1, digitsVal p2.1, digitsVal p3.1)
      else none
    | [] => none
  | [] => none

/-- Model of `datetime.strptime(s, "%H:%M")`: one or two digits for the
hour (value 0-23) and the minute (value 0-59), whole string consumed. -/
def parseTimeChars (l : List Char) : Option (Nat × Nat) :=
  let p1 := spanDigits l
  match p1.2 with
  | sep :: r2 =>
    let p2 := spanDigits r2
    if sep = ':' ∧ 1 ≤ p1.1.length ∧ p1.1.length ≤ 2 ∧ digitsVal p1.1 ≤ 23 ∧
        p2.2 = [] ∧ 1 ≤ p2.1.length ∧ p2.1.length ≤ 2 ∧ digitsVal p2.1 ≤ 59 then
      some (digitsVal p1.1, digitsVal p2.1)
    else none
  | [] => none

def parseDate (s : String) : Option (Nat × Nat × Nat) := parseDateChars s.toList

def parseTime (s : String) : Option (Nat × Nat) := parseTimeChars s.toList

/-- FORMAT VALIDATION success for the date string (lines 196-198 of
salon_ibargo_ai_utils.py). -/
def validDate (s : String) : Bool := (parseDate s).isSome

/-- FORMAT VALIDATION success for the time string. -/
def validTime (s : String) : Bool := (parseTime s).isSome

/-! ## strftime / isoformat models -/

/-- strftime `"%Y-%m-%d"` of a datetime with the given components. -/
def dateChars (y m d : Nat) : List Char :=
  pad4Chars y ++ '-' :: pad2Chars m ++ '-' :: pad2Chars d

/-- strftime `"%H:%M"`. -/
def timeChars (H Mi : Nat) : List Char := pad2Chars H ++ ':' :: pad2Chars Mi

def fmtDate (y m d : Nat) : String := String.mk (dateChars y m d)

def fmtTime (H Mi : Nat) : String := String.mk (timeChars H Mi)

/-- Offset suffix of `datetime.isoformat()`: sign, hours, minutes, and a
seconds field only when the offset is not a whole number of minutes. -/
def offsetChars (off : Int) : List Char :=
  let a := off.natAbs
  let ss := a % 60
  (if off < 0 then '-' else '+') ::
    (pad2Chars (a / 3600) ++ ':' :: pad2Chars (a % 3600 / 60) ++
      (if ss = 0 then [] else ':' :: pad2Chars ss))

/-- `datetime.isoformat()` of an aware datetime with second and no
microsecond: `YYYY-MM-DDTHH:MM:SS` followed by the UTC-offset suffix. -/
def isoChars (y m d H Mi S : Nat) (off : Int) : List Char :=
  dateChars y m d ++ 'T' :: (timeChars H Mi ++ ':' :: pad2Chars S) ++
    offsetChars off

def isoFormat (y m d H Mi S : Nat) (off : Int) : String :=
  String.mk (isoChars y m d H Mi S off)

/-- Model of `datetime.fromisoformat` on the shapes `isoformat` emits:
a fully padded date and time, then a `±HH:MM` offset with optional `:SS`,
with the calendar, clock and offset validity checks the `datetime` and
`timezone` constructors impose.  Returns
`(year, month, day, hour, minute, second, offset-seconds)`. -/
def isoParseChars : List Char → Option (Nat × Nat × Nat × Nat × Nat × Nat × Int)
  | y1 :: y2 :: y3 :: y4 :: c1 :: mo1 :: mo2 :: c2 :: d1 :: d2 :: c3 ::
      h1 :: h2 :: c4 :: mi1 :: mi2 :: c5 :: s1 :: s2 :: sgn :: o1 :: o2 ::
      c6 :: o3 :: o4 :: rest =>
    if c1 = '-' ∧ c2 = '-' ∧ c3 = 'T' ∧ c4 = ':' ∧ c5 = ':' ∧ c6 = ':' ∧
        (sgn = '+' ∨ sgn = '-') ∧
        (isDigitChar y1 && isDigitChar y2 && isDigitChar y3 && isDigitChar y4 &&
         isDigitChar mo1 && isDigitChar mo2 && isDigitChar d1 && isDigitChar d2 &&
         isDigitChar h1 && isDigitChar h2 && isDigitChar mi1 && isDigitChar mi2 &&
         isDigitChar s1 && isDigitChar s2 && isDigitChar o1 && isDigitChar o2 &&
         isDigitChar o3 && isDigitChar o4) = true then
      let y := digitsVal [y1, y2, y3, y4]
      let mo := digitsVal [mo1, mo2]
      let d := digitsVal [d1, d2]
      let H := digitsVal [h1, h2]
      let Mi := digitsVal [mi1, mi2]
      let S := digitsVal [s1, s2]
      let oh := digitsVal [o1, o2]
      let om := digitsVal [o3, o4]
      let finish (os : Nat) : Option (Nat × Nat × Nat × Nat × Nat × Nat × Int) :=
        let total := oh * 3600 + om * 60 + os
        if 1 ≤ y ∧ 1 ≤ mo ∧ mo ≤ 12 ∧ 1 ≤ d ∧ d ≤ daysInMonth y mo ∧
            H ≤ 23 ∧ Mi ≤ 59 ∧ S ≤ 59 ∧ om ≤ 59 ∧ os ≤ 59 ∧ total < 86400 then
          some (y, mo, d, H, Mi, S, if sgn = '-' then -(total : Int) else total)
        else none
      match rest with
      | [] => finish 0
      | c7 :: o5 :: o6 :: tail =>
          if c7 = ':' ∧ tail = [] ∧ (isDigitChar o5 && isDigitChar o6) = true then
            finish (digitsVal [o5, o6])
          else none
      | _ => none
    else none
  | _ => none

def isoParse (s : String) : Option (Nat × Nat × Nat × Nat × Nat × Nat × Int) :=
  isoParseChars s.toList

/-! ## The date/time resolver (normalize_visit_datetime_pst) -/

/-- The result dict of `normalize_visit_datetime_pst`.  `visit_date` and
`visit_time` hold whatever raw value the code preserves (possibly `None` or
a non-string, hence `JValue`); `visit_datetime_iso` is `None` or an ISO
string. -/
structure NormResult where
  visit_date : JValue
  visit_time : JValue
  visit_datetime_iso : Option String
  timezone : String
  confidence : String

/-- Outcome of the `client.responses.create` call plus `extract_text` plus
`json.loads` inside the try block (lines 150-169): the call (or extraction)
raised, or the extracted text was rejected by `json.loads` (including the
empty string), or a JSON value was parsed. -/
inductive GenOutcome where
  | raises
  | badText
  | parsed (v : JValue)

/-- The all-null low-confidence result returned when the generation call or
JSON parsing fails (lines 163-169). -/
def lowAllNull : NormResult :=
  { visit_date := .jnull, visit_time := .jnull, visit_datetime_iso := none,
    timezone := "America/Los_Angeles", confidence := "low" }

/-- Embedding of `normalize_visit_datetime_pst` (lines 112-242), as a
function of the generation outcome.  `tzoff` abstracts the
`ZoneInfo("America/Los_Angeles")` UTC-offset lookup used by `isoformat`.
A Python exception escaping the function is `.error`; in particular, when
`json.loads` succeeds with a non-object, the attribute lookup `data.get`
on line 172 raises `AttributeError`, which is outside the try block.
The high-confidence branch re-parses `f"{date_str} {time_str}"` under
`"%Y-%m-%d %H:%M"`; as both components already parsed under their own
patterns and contain no whitespace, that parse yields the same components,
so the embedding reuses them directly. -/
def normalize (tzoff : Nat → Nat → Nat → Nat → Nat → Int) (g : GenOutcome) :
    Except PyErr NormResult :=
  match g with
  | .raises => .ok lowAllNull
  | .badText => .ok lowAllNull
  | .parsed data =>
    match data with
    | .jobj kvs =>
      let date_v := pyGet kvs "date"
      let time_v := pyGet kvs "time"
      let conf := pyGetD kvs "confidence" (.jstr "low")
      match date_v, time_v with
      | .jstr date_str, .jstr time_str =>
        match parseDate date_str, parseTime time_str with
        | some (y, m, d), some (H, Mi) =>
          if jeqStr conf "high" then
            .ok { visit_date := .jstr (fmtDate y m d),
                  visit_time := .jstr (fmtTime H Mi),
                  visit_datetime_iso :=
                    some (isoFormat y m d H Mi 0 (tzoff y m d H Mi)),
                  timezone := "America/Los_Angeles", confidence := "high" }
          else
            .ok { visit_date := .jstr date_str, visit_time := .jstr time_str,
                  visit_datetime_iso := none,
                  timezone := "America/Los_Angeles", confidence := "low" }
        | _, _ =>
            .ok { visit_date := .jstr date_str, visit_time := .jstr time_str,
                  visit_datetime_iso := none,
                  timezone := "America/Los_Angeles", confidence := "low" }
      | dv, tv =>
          .ok { visit_date := dv, visit_time := tv,
                visit_datetime_iso := none,
                timezone := "America/Los_Angeles", confidence := "low" }
    | _ => .error .attributeError

/-! ## The transcript flattener (transcript_to_single_line) -/

/-- One transcript turn, per the docstring of `transcript_to_single_line`:
a dict with a `role` string and a `content` string, `content` possibly
absent (`none`). -/
structure Turn where
  role : String
  content : Option String
deriving DecidableEq, Repr

/-- Python truthiness of `item.get("content")`: present and non-empty. -/
def keepTurn (t : Turn) : Bool :=
  match t.content with
  | some s => !(s == "")
  | none => false

/-- Python `str.strip()` on the ASCII whitespace characters. -/
def isPySpace (c : Char) : Bool :=
  c = ' ' || c = '\t' || c = '\n' || c = '\r' || c = '\x0b' || c = '\x0c'

def stripChars (l : List Char) : List Char :=
  ((l.dropWhile isPySpace).reverse.dropWhile isPySpace).reverse

/-- Rendering of one kept turn:
`f"{item['role'].upper()}: {item['content'].replace('\n', ' ').strip()}"`. -/
def renderTurn (t : Turn) : String :=
  String.mk (((t.role.toList).map Char.toUpper) ++ ':' :: ' ' ::
    stripChars (((t.content.getD "").toList).map
      (fun c => if c = '\n' then ' ' else c)))

/-- Python `sep.join(strings)`. -/
def pyJoin (sep : String) : List String → String
  | [] => ""
  | [x] => x
  | x :: xs => x ++ sep ++ pyJoin sep xs

/-- Embedding of `transcript_to_single_line` (lines 58-71): kept turns,
rendered and joined with `" | "`. -/
def transcript_to_single_line (transcript : List Turn) : String :=
  pyJoin " | " ((transcript.filter keepTurn).map renderTurn)

/-! ## Action endpoints: base field validation -/

/-- Embedding of `extract_base_fields` (salon_ibargo_actions.py, lines
19-35): falsy `conversation_id` or `channel` raise an
`HTTPException(400, ...)` with a descriptive detail. -/
def extract_base_fields (payload : List (String × JValue)) :
    Except PyErr (JValue × JValue) :=
  let conversation_id := pyGet payload "conversation_id"
  let channel := pyGet payload "channel"
  if !jtruthy conversation_id then
    .error (.httpException 400 "conversation_id is required")
  else if !jtruthy channel then
    .error (.httpException 400 "channel is required")
  else .ok (conversation_id, channel)

/-! ## The after-call handler (handle_salon_after_call) -/

/-- Model of `datetime.strptime(s, "%Y-%m-%d %H:%M:%S")`: the date part as
in `parseDateChars`, then one or more whitespace characters (a literal
space in a strptime format matches a whitespace run), then hour, minute
and second, each one or two digits within clock range. -/
def parseDateTimeSecChars (l : List Char) :
    Option (Nat × Nat × Nat × Nat × Nat × Nat) :=
  let p1 := spanDigits l
  match p1.2 with
  | sep1 :: r2 =>
    let p2 := spanDigits r2
    match p2.2 with
    | sep2 :: r4 =>
      let p3 := spanDigits r4
      match p3.2 with
      | sp :: r6 =>
        let p4 := spanDigits (r6.dropWhile isPySpace)
        match p4.2 with
        | sep3 :: r9 =>
          let p5 := spanDigits r9
          match p5.2 with
          | sep4 :: r11 =>
            let p6 := spanDigits r11
            if p1.1.length = 4 ∧ sep1 = '-' ∧ sep2 = '-' ∧ isPySpace sp ∧
                sep3 = ':' ∧ sep4 = ':' ∧
                1 ≤ p2.1.length ∧ p2.1.length ≤ 2 ∧ 1 ≤ digitsVal p2.1 ∧
                digitsVal p2.1 ≤ 12 ∧
                1 ≤ p3.1.length ∧ p3.1.length ≤ 2 ∧ 1 ≤ digitsVal p3.1 ∧
                digitsVal p3.1 ≤ daysInMonth (digitsVal p1.1) (digitsVal p2.1) ∧
                1 ≤ digitsVal p1.1 ∧
                1 ≤ p4.1.length ∧ p4.1.length ≤ 2 ∧ digitsVal p4.1 ≤ 23 ∧
                1 ≤ p5.1.length ∧ p5.1.length ≤ 2 ∧ digitsVal p5.1 ≤ 59 ∧
                p6.2 = [] ∧ 1 ≤ p6.1.length ∧ p6.1.length ≤ 2 ∧
                digitsVal p6.1 ≤ 59 then
              some (digitsVal p1.1, digitsVal p2.1, digitsVal p3.1,
                digitsVal p4.1, digitsVal p5.1, digitsVal p6.1)
            else none
          | [] => none
        | [] => none
      | [] => none
    | [] => none
  | [] => none

def parseDateTimeSec (s : String) : Option (Nat × Nat × Nat × Nat × Nat × Nat) :=
  parseDateTimeSecChars s.toList

/-- strftime `"%Y-%m-%d %H:%M:%S"`. -/
def fmtDateTimeSec (y m d H Mi S : Nat) : String :=
  String.mk (dateChars y m d ++ ' ' :: (timeChars H Mi ++ ':' :: pad2Chars S))

/-- Seconds of an aware PST datetime relative to 0001-01-01 00:00:00 UTC:
wall-clock seconds minus the UTC offset.  Aware-datetime subtraction
compares these. -/
def awareSecs (tzoff : Nat → Nat → Nat → Nat → Nat → Int)
    (y m d H Mi S : Nat) : Int :=
  ((daysFromCivil y m d : Int) * 86400 + H * 3600 + Mi * 60 + S) -
    tzoff y m d H Mi

/-- The inbound after-call payload, at the shape the handler reads
(each required key present or absent; `transcript` a list of turns per the
flattener's docstring; `confirmed_visit` a dict when present). -/
structure Payload where
  conversation_id : Option JValue
  channel : Option JValue
  conversation_started_at : Option JValue
  conversation_ended_at : Option JValue
  transcript : Option (List Turn)
  confirmed_visit : Option (List (String × JValue))

/-- Python `payload["k"]`: `KeyError` when the key is absent. -/
def pyIndex (v : Option JValue) (k : String) : Except PyErr JValue :=
  match v with
  | some x => .ok x
  | none => .error (.keyError k)

/-- `strptime` demands a string first argument (`TypeError` otherwise). -/
def asStr (v : JValue) : Except PyErr String :=
  match v with
  | .jstr s => .ok s
  | _ => .error .typeError

/-- Sheet append performed through `append_row_to_sheet`. -/
structure SheetAppend where
  sheetName : String
  headers : List String
  row : List (String × JValue)

def CHAT_HEADERS : List String :=
  ["Creado", "Empiezo Chat", "Termino Chat", "Duración", "Transcripción",
   "Resumen", "ID"]

def CALL_HEADERS : List String :=
  ["Creado", "Empiezo Llamada", "Termino Llamada", "Duración",
   "Transcripción", "Resumen", "ID"]

def VISIT_HEADERS : List String :=
  ["Creado", "Nombre", "Motivo", "Fecha", "Hora", "ID Conversación", "Canal"]

/-- Observable outcome of a successful `handle_salon_after_call` run. -/
structure AfterCallOutcome where
  summarizeCalled : Bool
  summary : Option String
  singleLineTranscript : String
  appends : List SheetAppend
  response : List (String × JValue)

/-- Embedding of `handle_salon_after_call`
(salon_ibargo_after_call_handler.py, lines 67-203).  `tzoff` abstracts the
`ZoneInfo("America/Los_Angeles")` offset lookup used when subtracting the
two aware timestamps; `summaryText` is the text the external
`summarize_transcript` call would return when invoked.  Escaping Python
exceptions (`KeyError` on missing required fields, `TypeError`/`ValueError`
from `strptime`) are `.error` values. -/
def handleAfterCall (tzoff : Nat → Nat → Nat → Nat → Nat → Int)
    (p : Payload) (summaryText : String) : Except PyErr AfterCallOutcome :=
  match pyIndex p.conversation_id "conversation_id" with
  | .error e => .error e
  | .ok conversation_id =>
  match pyIndex p.channel "channel" with
  | .error e => .error e
  | .ok channel =>
  match pyIndex p.conversation_started_at "conversation_started_at" with
  | .error e => .error e
  | .ok started_v =>
  match pyIndex p.conversation_ended_at "conversation_ended_at" with
  | .error e => .error e
  | .ok ended_v =>
  let transcript := p.transcript.getD []
  match asStr started_v with
  | .error e => .error e
  | .ok started_str =>
  match asStr ended_v with
  | .error e => .error e
  | .ok ended_str =>
  match parseDateTimeSec started_str with
  | none => .error .valueError
  | some (y1, m1, d1, H1, Mi1, S1) =>
  match parseDateTimeSec ended_str with
  | none => .error .valueError
  | some (y2, m2, d2, H2, Mi2, S2) =>
  let duration := awareSecs tzoff y2 m2 d2 H2 Mi2 S2 -
    awareSecs tzoff y1 m1 d1 H1 Mi1 S1
  let summarizeCalled := !transcript.isEmpty
  let summary := if transcript.isEmpty then none else some summaryText
  let single_line_transcript := transcript_to_single_line transcript
  let created_str := fmtDateTimeSec y2 m2 d2 H2 Mi2 S2
  let started_fmt := fmtDateTimeSec y1 m1 d1 H1 Mi1 S1
  let ended_fmt := fmtDateTimeSec y2 m2 d2 H2 Mi2 S2
  let summaryCell := match summary with
    | some s => JValue.jstr s
    | none => JValue.jnull
  let routed : String × List String × List (String × JValue) :=
    if jeqStr channel "voice" then
      ("Llamadas", CALL_HEADERS,
        [("Creado", .jstr created_str), ("Empiezo Llamada", .jstr started_fmt),
         ("Termino Llamada", .jstr ended_fmt), ("Duración", .jnum duration),
         ("Transcripción", .jstr single_line_transcript),
         ("Resumen", summaryCell), ("ID", conversation_id)])
    else if jeqStr channel "chat" then
      ("Chats", CHAT_HEADERS,
        [("Creado", .jstr created_str), ("Empiezo Chat", .jstr started_fmt),
         ("Termino Chat", .jstr ended_fmt), ("Duración", .jnum duration),
         ("Transcripción", .jstr single_line_transcript),
         ("Resumen", summaryCell), ("ID", conversation_id)])
    else
      ("Chats", CHAT_HEADERS,
        [("Creado", .jstr created_str), ("Empiezo Chat", .jstr started_fmt),
         ("Termino Chat", .jstr ended_fmt), ("Duración", .jnum duration),
         ("Transcripción", .jstr single_line_transcript),
         ("Resumen", summaryCell), ("ID", conversation_id)])
  let mainAppend : SheetAppend :=
    { sheetName := routed.1, headers := routed.2.1, row := routed.2.2 }
  let finishWith (appends : List SheetAppend) : Except PyErr AfterCallOutcome :=
    .ok { summarizeCalled := summarizeCalled, summary := summary,
          singleLineTranscript := single_line_transcript,
          appends := appends,
          response := [("status", .jstr "processed")] }
  match p.confirmed_visit with
  | none => finishWith [mainAppend]
  | some visit_kvs =>
    if visit_kvs.isEmpty then finishWith [mainAppend]
    else
      match jfind visit_kvs "name" with
      | none => .error (.keyError "name")
      | some nameV =>
      match jfind visit_kvs "purpose" with
      | none => .error (.keyError "purpose")
      | some purposeV =>
      match jfind visit_kvs "visit_date" with
      | none => .error (.keyError "visit_date")
      | some dateV =>
      match jfind visit_kvs "visit_time" with
      | none => .error (.keyError "visit_time")
      | some timeV =>
      finishWith [mainAppend,
        { sheetName := "Citas", headers := VISIT_HEADERS,
          row := [("Creado", .jstr created_str), ("Nombre", nameV),
                  ("Motivo", purposeV), ("Fecha", dateV), ("Hora", timeV),
                  ("ID Conversación", conversation_id)] }]

/-! ## Lemmas: digits and spans -/

theorem isDigitChar_digitChar {n : Nat} (h : n < 10) :
    isDigitChar (digitChar n) = true := by
  interval_cases n <;> decide

theorem charVal_digitChar {n : Nat} (h : n < 10) : charVal (digitChar n) = n := by
  interval_cases n <;> decide

theorem charVal_le_of_isDigitChar {c : Char} (h : isDigitChar c = true) :
    charVal c ≤ 9 := by
  have h' := h
  unfold isDigitChar at h'
  simp only [Bool.and_eq_true, Nat.ble_eq] at h'
  unfold charVal
  omega

theorem spanDigits_cons_digit {c : Char} (cs : List Char)
    (h : isDigitChar c = true) :
    spanDigits (c :: cs) = (c :: (spanDigits cs).1, (spanDigits cs).2) := by
  simp [spanDigits, h]

theorem spanDigits_cons_nondigit {c : Char} (cs : List Char)
    (h : isDigitChar c = false) :
    spanDigits (c :: cs) = ([], c :: cs) := by
  simp [spanDigits, h]

theorem spanDigits_fst_digits (l : List Char) :
    ∀ c ∈ (spanDigits l).1, isDigitChar c = true := by
  induction l with
  | nil => simp [spanDigits]
  | cons c cs ih =>
    by_cases h : isDigitChar c = true
    · rw [spanDigits_cons_digit cs h]
      intro x hx
      rcases List.mem_cons.mp hx with h1 | h2
      · exact h1 ▸ h
      · exact ih x h2
    · rw [spanDigits_cons_nondigit cs (Bool.eq_false_iff.mpr h)]
      simp

theorem digitsVal_foldl_lt {l : List Char}
    (hd : ∀ c ∈ l, isDigitChar c = true) :
    ∀ a, l.foldl (fun a c => 10 * a + charVal c) a < (a + 1) * 10 ^ l.length := by
  induction l with
  | nil => intro a; simp
  | cons c cs ih =>
    intro a
    have hc : charVal c ≤ 9 := charVal_le_of_isDigitChar (hd c (by simp))
    have hrec := ih (fun x hx => hd x (List.mem_cons_of_mem c hx))
      (10 * a + charVal c)
    simp only [List.foldl_cons, List.length_cons]
    calc List.foldl (fun a c => 10 * a + charVal c) (10 * a + charVal c) cs
        < (10 * a + charVal c + 1) * 10 ^ cs.length := hrec
      _ ≤ ((a + 1) * 10) * 10 ^ cs.length := by
          have : 10 * a + charVal c + 1 ≤ (a + 1) * 10 := by omega
          exact Nat.mul_le_mul_right _ this
      _ = (a + 1) * 10 ^ (cs.length + 1) := by ring

theorem digitsVal_lt {l : List Char}
    (hd : ∀ c ∈ l, isDigitChar c = true) : digitsVal l < 10 ^ l.length := by
  have := digitsVal_foldl_lt hd 0
  simpa [digitsVal] using this

theorem digitsVal_pad2 {n : Nat} (h : n ≤ 99) :
    digitsVal (pad2Chars n) = n := by
  have h1 : n / 10 < 10 := by omega
  have h2 : n % 10 < 10 := by omega
  simp [pad2Chars, digitsVal, charVal_digitChar h1, charVal_digitChar h2]
  omega

theorem digitsVal_pad4 {n : Nat} (h : n ≤ 9999) :
    digitsVal (pad4Chars n) = n := by
  have h1 : n / 1000 < 10 := by omega
  have h2 : n / 100 % 10 < 10 := by omega
  have h3 : n / 10 % 10 < 10 := by omega
  have h4 : n % 10 < 10 := by omega
  simp [pad4Chars, digitsVal, charVal_digitChar h1, charVal_digitChar h2,
    charVal_digitChar h3, charVal_digitChar h4]
  omega

theorem spanDigits_pad2_append {n : Nat} (h : n ≤ 99) {c : Char}
    (hc : isDigitChar c = false) (rest : List Char) :
    spanDigits (pad2Chars n ++ c :: rest) = (pad2Chars n, c :: rest) := by
  have h1 : n / 10 < 10 := by omega
  have h2 : n % 10 < 10 := by omega
  simp only [pad2Chars, List.cons_append, List.nil_append]
  rw [spanDigits_cons_digit _ (isDigitChar_digitChar h1),
    spanDigits_cons_digit _ (isDigitChar_digitChar h2),
    spanDigits_cons_nondigit _ hc]

theorem spanDigits_pad2_nil {n : Nat} (h : n ≤ 99) :
    spanDigits (pad2Chars n) = (pad2Chars n, []) := by
  have h1 : n / 10 < 10 := by omega
  have h2 : n % 10 < 10 := by omega
  simp only [pad2Chars]
  rw [spanDigits_cons_digit _ (isDigitChar_digitChar h1),
    spanDigits_cons_digit _ (isDigitChar_digitChar h2)]
  rfl

theorem spanDigits_pad4_append {n : Nat} (h : n ≤ 9999) {c : Char}
    (hc : isDigitChar c = false) (rest : List Char) :
    spanDigits (pad4Chars n ++ c :: rest) = (pad4Chars n, c :: rest) := by
  have h1 : n / 1000 < 10 := by omega
  have h2 : n / 100 % 10 < 10 := by omega
  have h3 : n / 10 % 10 < 10 := by omega
  have h4 : n % 10 < 10 := by omega
  simp only [pad4Chars, List.cons_append, List.nil_append]
  rw [spanDigits_cons_digit _ (isDigitChar_digitChar h1),
    spanDigits_cons_digit _ (isDigitChar_digitChar h2),
    spanDigits_cons_digit _ (isDigitChar_digitChar h3),
    spanDigits_cons_digit _ (isDigitChar_digitChar h4),
    spanDigits_cons_nondigit _ hc]

/-! ## Lemmas: strptime/strftime round trips and parser bounds -/

theorem daysInMonth_le (y m : Nat) : daysInMonth y m ≤ 31 := by
  unfold daysInMonth
  split <;> first | omega | (split <;> omega)

theorem parseDateChars_dateChars {y m d : Nat} (hy1 : 1 ≤ y) (hy : y ≤ 9999)
    (hm1 : 1 ≤ m) (hm : m ≤ 12) (hd1 : 1 ≤ d) (hd : d ≤ daysInMonth y m) :
    parseDateChars (dateChars y m d) = some (y, m, d) := by
  have hd99 : d ≤ 99 := by have := daysInMonth_le y m; omega
  unfold dateChars parseDateChars
  simp only [List.append_assoc, List.cons_append]
  rw [spanDigits_pad4_append hy (by decide)]
  dsimp only
  rw [spanDigits_pad2_append (by omega : m ≤ 99) (by decide)]
  dsimp only
  rw [spanDigits_pad2_nil hd99]
  dsimp only
  rw [digitsVal_pad4 hy, digitsVal_pad2 (by omega : m ≤ 99), digitsVal_pad2 hd99]
  simp [pad4Chars, pad2Chars, hy1, hm1, hm, hd1, hd]

theorem parseTimeChars_timeChars {H Mi : Nat} (hH : H ≤ 23) (hMi : Mi ≤ 59) :
    parseTimeChars (timeChars H Mi) = some (H, Mi) := by
  unfold timeChars parseTimeChars
  rw [spanDigits_pad2_append (by omega : H ≤ 99) (by decide)]
  dsimp only
  rw [spanDigits_pad2_nil (by omega : Mi ≤ 99)]
  dsimp only
  rw [digitsVal_pad2 (by omega : H ≤ 99), digitsVal_pad2 (by omega : Mi ≤ 99)]
  simp [pad2Chars, hH, hMi]

theorem validDate_fmtDate {y m d : Nat} (hy1 : 1 ≤ y) (hy : y ≤ 9999)
    (hm1 : 1 ≤ m) (hm : m ≤ 12) (hd1 : 1 ≤ d) (hd : d ≤ daysInMonth y m) :
    validDate (fmtDate y m d) = true := by
  have h := parseDateChars_dateChars hy1 hy hm1 hm hd1 hd
  simp [validDate, parseDate, fmtDate, h]

theorem validTime_fmtTime {H Mi : Nat} (hH : H ≤ 23) (hMi : Mi ≤ 59) :
    validTime (fmtTime H Mi) = true := by
  have h := parseTimeChars_timeChars hH hMi
  simp [validTime, parseTime, fmtTime, h]

theorem parseDateChars_bounds {l : List Char} {y m d : Nat}
    (h : parseDateChars l = some (y, m, d)) :
    1 ≤ y ∧ y ≤ 9999 ∧ 1 ≤ m ∧ m ≤ 12 ∧ 1 ≤ d ∧ d ≤ daysInMonth y m := by
  unfold parseDateChars at h
  dsimp only at h
  split at h
  · split at h
    · split at h
      · rename_i hcond
        obtain ⟨hlen4, _, _, _, _, hm1', hm12, _, _, _, hd1', hdmax, hy1'⟩ := hcond
        have hylt : digitsVal (spanDigits l).1 < 10 ^ (spanDigits l).1.length :=
          digitsVal_lt (spanDigits_fst_digits l)
        rw [hlen4] at hylt
        simp only [Option.some.injEq, Prod.mk.injEq] at h
        obtain ⟨h1, h2, h3⟩ := h
        subst h1; subst h2; subst h3
        exact ⟨hy1', by omega, hm1', hm12, hd1', hdmax⟩
      · simp at h
    · simp at h
  · simp at h

theorem parseTimeChars_bounds {l : List Char} {H Mi : Nat}
    (h : parseTimeChars l = some (H, Mi)) : H ≤ 23 ∧ Mi ≤ 59 := by
  unfold parseTimeChars at h
  dsimp only at h
  split at h
  · split at h
    · rename_i hcond
      obtain ⟨_, _, _, hH23, _, _, _, hM59⟩ := hcond
      simp only [Option.some.injEq, Prod.mk.injEq] at h
      obtain ⟨h1, h2⟩ := h
      subst h1; subst h2
      exact ⟨hH23, hM59⟩
    · simp at h
  · simp at h

/-! ## Lemmas: the isoformat round trip -/

theorem digitsVal_pad4L {n : Nat} (h : n ≤ 9999) :
    digitsVal [digitChar (n / 1000), digitChar (n / 100 % 10),
      digitChar (n / 10 % 10), digitChar (n % 10)] = n := digitsVal_pad4 h

theorem digitsVal_pad2L {n : Nat} (h : n ≤ 99) :
    digitsVal [digitChar (n / 10), digitChar (n % 10)] = n := digitsVal_pad2 h

theorem isDigitChar_digitChar_mod (x : Nat) :
    isDigitChar (digitChar (x % 10)) = true :=
  isDigitChar_digitChar (Nat.mod_lt _ (by omega))

theorem isoParseChars_isoChars {y m d H Mi S : Nat} {off : Int}
    (hy1 : 1 ≤ y) (hy : y ≤ 9999) (hm1 : 1 ≤ m) (hm : m ≤ 12)
    (hd1 : 1 ≤ d) (hd : d ≤ daysInMonth y m) (hH : H ≤ 23) (hMi : Mi ≤ 59)
    (hS : S ≤ 59) (hoff : off.natAbs < 86400) :
    isoParseChars (isoChars y m d H Mi S off) = some (y, m, d, H, Mi, S, off) := by
  have hd31 : d ≤ 31 := le_trans hd (daysInMonth_le y m)
  have hdig1 : isDigitChar (digitChar (y / 1000)) = true :=
    isDigitChar_digitChar (by omega)
  have hdig2 : isDigitChar (digitChar (m / 10)) = true :=
    isDigitChar_digitChar (by omega)
  have hdig3 : isDigitChar (digitChar (d / 10)) = true :=
    isDigitChar_digitChar (by omega)
  have hdig4 : isDigitChar (digitChar (H / 10)) = true :=
    isDigitChar_digitChar (by omega)
  have hdig5 : isDigitChar (digitChar (Mi / 10)) = true :=
    isDigitChar_digitChar (by omega)
  have hdig6 : isDigitChar (digitChar (S / 10)) = true :=
    isDigitChar_digitChar (by omega)
  have hdig7 : isDigitChar (digitChar (off.natAbs / 3600 / 10)) = true :=
    isDigitChar_digitChar (by omega)
  have hdig8 : isDigitChar (digitChar (off.natAbs % 3600 / 60 / 10)) = true :=
    isDigitChar_digitChar (by omega)
  have hdig9 : isDigitChar (digitChar (off.natAbs % 60 / 10)) = true :=
    isDigitChar_digitChar (by omega)
  have hsgn : ((if off < 0 then '-' else '+') = '+' ∨
      (if off < 0 then '-' else '+') = '-') := by
    split
    · exact Or.inr rfl
    · exact Or.inl rfl
  have hsign : ∀ total : Nat, total = off.natAbs →
      (if (if off < 0 then '-' else '+') = '-' then -(total : Int) else total) =
        off := by
    intro total ht
    by_cases hneg : off < 0
    · rw [if_pos hneg, if_pos rfl]
      omega
    · rw [if_neg hneg, if_neg (by decide)]
      omega
  by_cases hss : off.natAbs % 60 = 0
  · simp only [isoChars, dateChars, timeChars, offsetChars, pad4Chars, pad2Chars,
      List.append_assoc, List.cons_append, List.nil_append]
    rw [if_pos hss]
    unfold isoParseChars
    dsimp only
    rw [if_pos (by
      and_intros <;> first
        | trivial
        | exact hsgn
        | simp only [hdig1, hdig2, hdig3, hdig4, hdig5, hdig6, hdig7, hdig8,
            isDigitChar_digitChar_mod, Bool.and_self, Bool.true_and,
            Bool.and_true])]
    rw [digitsVal_pad4L hy, digitsVal_pad2L (show m ≤ 99 by omega),
      digitsVal_pad2L (show d ≤ 99 by omega),
      digitsVal_pad2L (show H ≤ 99 by omega),
      digitsVal_pad2L (show Mi ≤ 99 by omega),
      digitsVal_pad2L (show S ≤ 99 by omega),
      digitsVal_pad2L (show off.natAbs / 3600 ≤ 99 by omega),
      digitsVal_pad2L (show off.natAbs % 3600 / 60 ≤ 99 by omega)]
    rw [if_pos ⟨hy1, hm1, hm, hd1, hd, hH, hMi, hS, by omega, by omega, by omega⟩]
    simp only [Option.some.injEq, Prod.mk.injEq, eq_self_iff_true, true_and,
      and_true]
    exact hsign _ (by omega)
  · simp only [isoChars, dateChars, timeChars, offsetChars, pad4Chars, pad2Chars,
      List.append_assoc, List.cons_append, List.nil_append]
    rw [if_neg hss]
    unfold isoParseChars
    dsimp only
    rw [if_pos (by
      and_intros <;> first
        | trivial
        | exact hsgn
        | simp only [hdig1, hdig2, hdig3, hdig4, hdig5, hdig6, hdig7, hdig8,
            isDigitChar_digitChar_mod, Bool.and_self, Bool.true_and,
            Bool.and_true])]
    rw [if_pos (by
      and_intros <;> first
        | trivial
        | simp only [hdig9, isDigitChar_digitChar_mod, Bool.and_self])]
    rw [digitsVal_pad4L hy, digitsVal_pad2L (show m ≤ 99 by omega),
      digitsVal_pad2L (show d ≤ 99 by omega),
      digitsVal_pad2L (show H ≤ 99 by omega),
      digitsVal_pad2L (show Mi ≤ 99 by omega),
      digitsVal_pad2L (show S ≤ 99 by omega),
      digitsVal_pad2L (show off.natAbs / 3600 ≤ 99 by omega),
      digitsVal_pad2L (show off.natAbs % 3600 / 60 ≤ 99 by omega),
      digitsVal_pad2L (show off.natAbs % 60 ≤ 99 by omega)]
    rw [if_pos ⟨hy1, hm1, hm, hd1, hd, hH, hMi, hS, by omega, by omega, by omega⟩]
    simp only [Option.some.injEq, Prod.mk.injEq, eq_self_iff_true, true_and,
      and_true]
    exact hsign _ (by omega)

/-! ## Spec-side predicates and helper lemmas about the resolver -/

/-- The spec's "well-formed `YYYY-MM-DD` string" for a result field: a string
that parses under the `%Y-%m-%d` pattern (§4.3 "must parse under pattern"). -/
def jWellFormedDate (v : JValue) : Bool :=
  match v with
  | .jstr s => validDate s
  | _ => false

/-- The spec's "well-formed 24-hour `HH:MM` string" for a result field. -/
def jWellFormedTime (v : JValue) : Bool :=
  match v with
  | .jstr s => validTime s
  | _ => false

/-- Exact canonical shape `dddd-dd-dd` (four digits, dash, two digits,
dash, two digits), the shape strftime `"%Y-%m-%d"` always emits. -/
def dateShape (s : String) : Bool :=
  match s.toList with
  | [a, b, c, d, s1, e, f, s2, g, h] =>
      isDigitChar a && isDigitChar b && isDigitChar c && isDigitChar d &&
      (s1 == '-') && isDigitChar e && isDigitChar f && (s2 == '-') &&
      isDigitChar g && isDigitChar h
  | _ => false

/-- Exact canonical shape `dd:dd`, the shape strftime `"%H:%M"` emits. -/
def timeShape (s : String) : Bool :=
  match s.toList with
  | [a, b, s1, c, d] =>
      isDigitChar a && isDigitChar b && (s1 == ':') && isDigitChar c &&
      isDigitChar d
  | _ => false

theorem toList_mk (l : List Char) : (String.mk l).toList = l := rfl

/-- Reduction of the resolver on a parsed three-key object when both format
checks pass. -/
theorem normalize_jobj_of_parse (tzoff : Nat → Nat → Nat → Nat → Nat → Int)
    (ds ts : String) (c : JValue) {y m d H Mi : Nat}
    (hpd : parseDate ds = some (y, m, d)) (hpt : parseTime ts = some (H, Mi)) :
    normalize tzoff (.parsed (.jobj
        [("date", .jstr ds), ("time", .jstr ts), ("confidence", c)])) =
      if jeqStr c "high" then
        .ok { visit_date := .jstr (fmtDate y m d),
              visit_time := .jstr (fmtTime H Mi),
              visit_datetime_iso :=
                some (isoFormat y m d H Mi 0 (tzoff y m d H Mi)),
              timezone := "America/Los_Angeles", confidence := "high" }
      else
        .ok { visit_date := .jstr ds, visit_time := .jstr ts,
              visit_datetime_iso := none,
              timezone := "America/Los_Angeles", confidence := "low" } := by
  unfold normalize
  simp [pyGet, pyGetD, jfind, hpd, hpt]

/-- Reduction of the resolver on a parsed three-key object when a format
check fails: the raw strings are preserved and confidence collapses. -/
theorem normalize_jobj_badformat (tzoff : Nat → Nat → Nat → Nat → Nat → Int)
    (ds ts : String) (c : JValue)
    (h : (validDate ds && validTime ts) = false) :
    normalize tzoff (.parsed (.jobj
        [("date", .jstr ds), ("time", .jstr ts), ("confidence", c)])) =
      .ok { visit_date := .jstr ds, visit_time := .jstr ts,
            visit_datetime_iso := none,
            timezone := "America/Los_Angeles", confidence := "low" } := by
  unfold normalize
  rcases hpd : parseDate ds with _ | ⟨⟨y, m, dd⟩⟩ <;>
    rcases hpt : parseTime ts with _ | ⟨⟨H, Mi⟩⟩
  all_goals simp [pyGet, pyGetD, jfind, hpd, hpt]
  all_goals simp [validDate, validTime, hpd, hpt] at h

/-- Reduction of the resolver when the `confidence` key is absent entirely:
`data.get("confidence", "low")` supplies the default. -/
theorem normalize_jobj_noconf (tzoff : Nat → Nat → Nat → Nat → Nat → Int)
    (ds ts : String) {y m d H Mi : Nat}
    (hpd : parseDate ds = some (y, m, d)) (hpt : parseTime ts = some (H, Mi)) :
    normalize tzoff (.parsed (.jobj [("date", .jstr ds), ("time", .jstr ts)])) =
      .ok { visit_date := .jstr ds, visit_time := .jstr ts,
            visit_datetime_iso := none,
            timezone := "America/Los_Angeles", confidence := "low" } := by
  unfold normalize
  simp [pyGet, pyGetD, jfind, hpd, hpt, jeqStr]

/-! ## Claim theorems -/

/-- C1 (code_bug evidence): the resolver recovers a low-confidence result
when the generation call raises, when the text is not JSON, and when the
parsed object is a dict (even an empty one) — but when `json.loads`
succeeds with a non-object (array, string, null), the attribute access
`data.get("confidence")` on line 172 raises `AttributeError` outside the
try block, so the exception escapes to the caller, contradicting the
spec's "never raises / malformed output never surfaces". -/
theorem c1_nonobject_json_raises :
    normalize laOffset (.parsed (.jarr [])) = .error .attributeError ∧
    normalize laOffset (.parsed (.jstr "high")) = .error .attributeError ∧
    normalize laOffset (.parsed .jnull) = .error .attributeError ∧
    normalize laOffset .raises = .ok lowAllNull ∧
    normalize laOffset .badText = .ok lowAllNull ∧
    normalize laOffset (.parsed (.jobj [])) =
      .ok { visit_date := .jnull, visit_time := .jnull,
            visit_datetime_iso := none, timezone := "America/Los_Angeles",
            confidence := "low" } :=
  ⟨rfl, rfl, rfl, rfl, rfl, rfl⟩

/-- C4: if the generation call raises or the extracted text fails JSON
parsing, the resolver returns (never raises) a result with all date fields
null, the fixed timezone, and confidence low (lines 161-169). -/
theorem c4_generation_failure_all_null
    (tzoff : Nat → Nat → Nat → Nat → Nat → Int) :
    normalize tzoff .raises =
      .ok { visit_date := .jnull, visit_time := .jnull,
            visit_datetime_iso := none, timezone := "America/Los_Angeles",
            confidence := "low" } ∧
    normalize tzoff .badText =
      .ok { visit_date := .jnull, visit_time := .jnull,
            visit_datetime_iso := none, timezone := "America/Los_Angeles",
            confidence := "low" } :=
  ⟨rfl, rfl⟩

/-- C4 witness at the concrete Los Angeles offset table. -/
theorem c4_generation_failure_all_null_witness :
    normalize laOffset .raises =
      .ok { visit_date := .jnull, visit_time := .jnull,
            visit_datetime_iso := none, timezone := "America/Los_Angeles",
            confidence := "low" } :=
  (c4_generation_failure_all_null laOffset).1

/-- C2: whenever the resolver returns a result, its confidence is "high"
exactly when `visit_datetime_iso` is non-null and both `visit_date` and
`visit_time` are well-formed date/time strings. -/
theorem c2_confidence_iff_committable
    (tzoff : Nat → Nat → Nat → Nat → Nat → Int) (g : GenOutcome)
    (r : NormResult) (h : normalize tzoff g = .ok r) :
    (r.confidence = "high" ↔
      r.visit_datetime_iso ≠ none ∧ jWellFormedDate r.visit_date = true ∧
        jWellFormedTime r.visit_time = true) := by
  cases g with
  | raises =>
    injection h with h
    subst h
    simp [lowAllNull, jWellFormedDate]
  | badText =>
    injection h with h
    subst h
    simp [lowAllNull, jWellFormedDate]
  | parsed v =>
    cases v with
    | jnull => exact absurd h (by simp [normalize])
    | jbool b => exact absurd h (by simp [normalize])
    | jnum n => exact absurd h (by simp [normalize])
    | jstr s => exact absurd h (by simp [normalize])
    | jarr xs => exact absurd h (by simp [normalize])
    | jobj kvs =>
      unfold normalize at h
      dsimp only at h
      split at h
      · rename_i ds ts
        split at h
        · rename_i pd pt y m d H Mi hpd hpt
          split at h
          · injection h with h
            subst h
            have hb := parseDateChars_bounds hpd
            have ht := parseTimeChars_bounds hpt
            simp [jWellFormedDate, jWellFormedTime,
              validDate_fmtDate hb.1 hb.2.1 hb.2.2.1 hb.2.2.2.1
                hb.2.2.2.2.1 hb.2.2.2.2.2,
              validTime_fmtTime ht.1 ht.2]
          · injection h with h
            subst h
            simp
        · injection h with h
          subst h
          simp
      · injection h with h
        subst h
        simp [jWellFormedDate]

/-- C2 witness at a concrete high-confidence generator reply. -/
theorem c2_confidence_iff_committable_witness :
    ((⟨.jstr "2026-01-20", .jstr "19:00", some "2026-01-20T19:00:00-08:00",
        "America/Los_Angeles", "high"⟩ : NormResult).confidence = "high" ↔
      ((⟨.jstr "2026-01-20", .jstr "19:00", some "2026-01-20T19:00:00-08:00",
          "America/Los_Angeles", "high"⟩ : NormResult).visit_datetime_iso ≠
            none ∧
        jWellFormedDate (⟨.jstr "2026-01-20", .jstr "19:00",
          some "2026-01-20T19:00:00-08:00", "America/Los_Angeles",
          "high"⟩ : NormResult).visit_date = true ∧
        jWellFormedTime (⟨.jstr "2026-01-20", .jstr "19:00",
          some "2026-01-20T19:00:00-08:00", "America/Los_Angeles",
          "high"⟩ : NormResult).visit_time = true)) :=
  c2_confidence_iff_committable laOffset
    (.parsed (.jobj [("date", .jstr "2026-01-20"), ("time", .jstr "19:00"),
      ("confidence", .jstr "high")]))
    ⟨.jstr "2026-01-20", .jstr "19:00", some "2026-01-20T19:00:00-08:00",
      "America/Los_Angeles", "high"⟩ rfl

/-- C3: a well-formed date/time with any generator confidence other than
the literal "high" (a different value, or the key absent) yields
confidence low, a null `visit_datetime_iso`, and the raw strings
preserved. -/
theorem c3_confidence_gate_dominates
    (tzoff : Nat → Nat → Nat → Nat → Nat → Int) (ds ts : String) (c : JValue)
    (y m d H Mi : Nat)
    (hpd : parseDate ds = some (y, m, d)) (hpt : parseTime ts = some (H, Mi))
    (hc : jeqStr c "high" = false) :
    normalize tzoff (.parsed (.jobj
        [("date", .jstr ds), ("time", .jstr ts), ("confidence", c)])) =
      .ok { visit_date := .jstr ds, visit_time := .jstr ts,
            visit_datetime_iso := none,
            timezone := "America/Los_Angeles", confidence := "low" } ∧
    normalize tzoff (.parsed (.jobj [("date", .jstr ds), ("time", .jstr ts)])) =
      .ok { visit_date := .jstr ds, visit_time := .jstr ts,
            visit_datetime_iso := none,
            timezone := "America/Los_Angeles", confidence := "low" } := by
  refine ⟨?_, normalize_jobj_noconf tzoff ds ts hpd hpt⟩
  rw [normalize_jobj_of_parse tzoff ds ts c hpd hpt, if_neg]
  simp [hc]

/-- C3 witness: generator asserts low on a perfectly well-formed pair. -/
theorem c3_confidence_gate_dominates_witness :
    normalize laOffset (.parsed (.jobj
        [("date", .jstr "2026-01-20"), ("time", .jstr "19:00"),
         ("confidence", .jstr "low")])) =
      .ok { visit_date := .jstr "2026-01-20", visit_time := .jstr "19:00",
            visit_datetime_iso := none,
            timezone := "America/Los_Angeles", confidence := "low" } :=
  (c3_confidence_gate_dominates laOffset "2026-01-20" "19:00" (.jstr "low")
    2026 1 20 19 0 (by decide) (by decide) (by decide)).1

/-- C5: format validation accepts a date string exactly when it parses
under the `%Y-%m-%d` pattern and a time string exactly when it parses
under 24-hour `%H:%M`; on failure the raw strings are preserved with
confidence low, and on success only the confidence gate decides whether a
committable timestamp appears; in particular `"2026-13-40"` (invalid
month) with asserted high confidence collapses to low with the raw string
preserved. -/
theorem c5_format_validation
    (tzoff : Nat → Nat → Nat → Nat → Nat → Int) (ds ts : String) (c : JValue) :
    ((validDate ds && validTime ts) = false →
      normalize tzoff (.parsed (.jobj
          [("date", .jstr ds), ("time", .jstr ts), ("confidence", c)])) =
        .ok { visit_date := .jstr ds, visit_time := .jstr ts,
              visit_datetime_iso := none,
              timezone := "America/Los_Angeles", confidence := "low" }) ∧
    ((validDate ds && validTime ts) = true →
      ∃ r, normalize tzoff (.parsed (.jobj
          [("date", .jstr ds), ("time", .jstr ts), ("confidence", c)])) =
          .ok r ∧ (r.visit_datetime_iso ≠ none ↔ jeqStr c "high" = true)) ∧
    normalize tzoff (.parsed (.jobj
        [("date", .jstr "2026-13-40"), ("time", .jstr "19:00"),
         ("confidence", .jstr "high")])) =
      .ok { visit_date := .jstr "2026-13-40", visit_time := .jstr "19:00",
            visit_datetime_iso := none,
            timezone := "America/Los_Angeles", confidence := "low" } := by
  refine ⟨fun hbad => normalize_jobj_badformat tzoff ds ts c hbad, ?_, ?_⟩
  · intro hok
    rw [Bool.and_eq_true] at hok
    obtain ⟨⟨y, m, d⟩, hpd⟩ := Option.isSome_iff_exists.mp hok.1
    obtain ⟨⟨H, Mi⟩, hpt⟩ := Option.isSome_iff_exists.mp hok.2
    rw [normalize_jobj_of_parse tzoff ds ts c hpd hpt]
    by_cases hc : jeqStr c "high" = true
    · rw [if_pos hc]
      exact ⟨_, rfl, by simp [hc]⟩
    · rw [if_neg (by simp [hc])]
      exact ⟨_, rfl, by simp [hc]⟩
  · exact normalize_jobj_badformat tzoff "2026-13-40" "19:00" (.jstr "high")
      (by decide)

/-- C5 witness: an out-of-range date is rejected by format validation. -/
theorem c5_format_validation_witness :
    normalize laOffset (.parsed (.jobj
        [("date", .jstr "2026-13-40"), ("time", .jstr "19:00"),
         ("confidence", .jstr "high")])) =
      .ok { visit_date := .jstr "2026-13-40", visit_time := .jstr "19:00",
            visit_datetime_iso := none,
            timezone := "America/Los_Angeles", confidence := "low" } :=
  (c5_format_validation laOffset "x" "y" (.jstr "high")).2.2

/-- C6: when format validation succeeds and the generator asserts high
confidence, the returned `visit_datetime_iso` parses back (as an ISO-8601
timestamp with offset) to exactly the resolved date and time with the
anchor zone's UTC offset at that local time — the round-trip law — and on
the spec's scenario the exact result record is produced. -/
theorem c6_roundtrip_law
    (tzoff : Nat → Nat → Nat → Nat → Nat → Int) (ds ts : String)
    (y m d H Mi : Nat)
    (hpd : parseDate ds = some (y, m, d)) (hpt : parseTime ts = some (H, Mi))
    (hoff : (tzoff y m d H Mi).natAbs < 86400) :
    (normalize tzoff (.parsed (.jobj
        [("date", .jstr ds), ("time", .jstr ts),
         ("confidence", .jstr "high")])) =
      .ok { visit_date := .jstr (fmtDate y m d),
            visit_time := .jstr (fmtTime H Mi),
            visit_datetime_iso :=
              some (isoFormat y m d H Mi 0 (tzoff y m d H Mi)),
            timezone := "America/Los_Angeles", confidence := "high" }) ∧
    isoParse (isoFormat y m d H Mi 0 (tzoff y m d H Mi)) =
      some (y, m, d, H, Mi, 0, tzoff y m d H Mi) ∧
    normalize laOffset (.parsed (.jobj
        [("date", .jstr "2026-01-20"), ("time", .jstr "19:00"),
         ("confidence", .jstr "high")])) =
      .ok { visit_date := .jstr "2026-01-20", visit_time := .jstr "19:00",
            visit_datetime_iso := some "2026-01-20T19:00:00-08:00",
            timezone := "America/Los_Angeles", confidence := "high" } := by
  have hb := parseDateChars_bounds hpd
  have ht := parseTimeChars_bounds hpt
  refine ⟨?_, ?_, rfl⟩
  · rw [normalize_jobj_of_parse tzoff ds ts (.jstr "high") hpd hpt]
    rw [if_pos (by decide)]
  · show isoParseChars (isoFormat y m d H Mi 0 (tzoff y m d H Mi)).toList = _
    rw [show (isoFormat y m d H Mi 0 (tzoff y m d H Mi)).toList =
        isoChars y m d H Mi 0 (tzoff y m d H Mi) from rfl]
    exact isoParseChars_isoChars hb.1 hb.2.1 hb.2.2.1 hb.2.2.2.1
      hb.2.2.2.2.1 hb.2.2.2.2.2 ht.1 ht.2 (by omega) hoff

/-- C6 witness at the spec's scenario input. -/
theorem c6_roundtrip_law_witness :
    isoParse (isoFormat 2026 1 20 19 0 0 (laOffset 2026 1 20 19 0)) =
      some (2026, 1, 20, 19, 0, 0, laOffset 2026 1 20 19 0) :=
  (c6_roundtrip_law laOffset "2026-01-20" "19:00" 2026 1 20 19 0 (by decide)
    (by decide) (by decide)).2.1

/-- C7: flatten drops turns whose content is empty or absent, renders each
kept turn as the uppercased role, a colon and space, and the content with
newlines replaced by spaces and trimmed, joins with the fixed delimiter
`" | "`; an all-empty transcript flattens to the empty string, and the
two-turn scenario flattens to exactly `"USER: Hola"`. -/
theorem c7_flatten_behavior :
    (∀ ts : List Turn, (∀ t ∈ ts, t.content = none ∨ t.content = some "") →
      transcript_to_single_line ts = "") ∧
    (∀ (t : Turn) (ts : List Turn), (t.content = none ∨ t.content = some "") →
      transcript_to_single_line (t :: ts) = transcript_to_single_line ts) ∧
    (∀ (t : Turn) (ts : List Turn), keepTurn t = true →
      transcript_to_single_line (t :: ts) =
        (if (ts.filter keepTurn).isEmpty then renderTurn t
         else renderTurn t ++ " | " ++ transcript_to_single_line ts)) ∧
    transcript_to_single_line
      [{ role := "user", content := some "Hola" },
       { role := "assistant", content := some "" }] = "USER: Hola" := by
  have hkeep : ∀ t : Turn, (t.content = none ∨ t.content = some "") →
      keepTurn t = false := by
    intro t ht
    rcases ht with h1 | h1 <;> simp [keepTurn, h1]
  refine ⟨?_, ?_, ?_, rfl⟩
  · intro ts h
    have hnil : ts.filter keepTurn = [] :=
      List.filter_eq_nil_iff.mpr (fun t htm => by simp [hkeep t (h t htm)])
    simp [transcript_to_single_line, hnil, pyJoin]
  · intro t ts ht
    simp [transcript_to_single_line, List.filter_cons, hkeep t ht]
  · intro t ts ht
    rcases hf : ts.filter keepTurn with _ | ⟨a, rest⟩ <;>
      simp [transcript_to_single_line, List.filter_cons, ht, hf, pyJoin]

/-- C7 witness: a single empty-content turn flattens to the empty string. -/
theorem c7_flatten_behavior_witness :
    transcript_to_single_line [{ role := "assistant", content := some "" }] =
      "" :=
  c7_flatten_behavior.1 [{ role := "assistant", content := some "" }]
    (by
      intro t htm
      simp only [List.mem_singleton] at htm
      subst htm
      exact Or.inr rfl)

/-- C8 (amended): the handler skips summarization exactly when the
transcript list is empty (absent key or empty list) — the gate is
`if transcript:` on the list, not on its contents — and a skipped
summarization leaves the summary null. -/
theorem c8_summarize_skipped_only_when_list_empty
    (tzoff : Nat → Nat → Nat → Nat → Nat → Int) (p : Payload) (s : String)
    (out : AfterCallOutcome) (h : handleAfterCall tzoff p s = .ok out) :
    ((p.transcript = none ∨ p.transcript = some []) →
      out.summarizeCalled = false ∧ out.summary = none) ∧
    out.summarizeCalled = !(p.transcript.getD []).isEmpty := by
  unfold handleAfterCall at h
  dsimp only at h
  repeat' split at h
  all_goals first
    | exact Except.noConfusion h
    | (injection h with h; subst h;
       refine ⟨fun he => ?_, rfl⟩;
       rcases he with h1 | h1 <;> simp_all)

/-- C8 witness: an absent-turns transcript (empty list) skips the
summarizer and leaves the summary null. -/
theorem c8_summarize_skipped_only_when_list_empty_witness :
    (handleAfterCall laOffset
      { conversation_id := some (.jstr "c1"), channel := some (.jstr "chat"),
        conversation_started_at := some (.jstr "2026-01-20 10:00:00"),
        conversation_ended_at := some (.jstr "2026-01-20 10:05:00"),
        transcript := some [], confirmed_visit := none } "s").map
      (fun out => (out.summarizeCalled, out.summary)) = .ok (false, none) := by
  obtain ⟨out, hout⟩ : ∃ out, handleAfterCall laOffset
      { conversation_id := some (.jstr "c1"), channel := some (.jstr "chat"),
        conversation_started_at := some (.jstr "2026-01-20 10:00:00"),
        conversation_ended_at := some (.jstr "2026-01-20 10:05:00"),
        transcript := some [], confirmed_visit := none } "s" = .ok out :=
    ⟨_, rfl⟩
  have hc := c8_summarize_skipped_only_when_list_empty laOffset _ "s" out hout
  have h2 := hc.1 (Or.inr rfl)
  rw [hout]
  simp [Except.map, h2.1, h2.2]

/-- C8 counterexample to the claim as stated: a transcript whose only turn
has empty content is a non-empty list, so the handler does invoke the
summarizer (`summarizeCalled = true`), although every turn's content is
empty. -/
theorem c8_all_empty_content_transcript_still_summarizes :
    (handleAfterCall laOffset
      { conversation_id := some (.jstr "c1"), channel := some (.jstr "voice"),
        conversation_started_at := some (.jstr "2026-01-20 10:00:00"),
        conversation_ended_at := some (.jstr "2026-01-20 10:05:00"),
        transcript := some [{ role := "user", content := some "" }],
        confirmed_visit := none } "resumen").map
      (fun out => out.summarizeCalled) = .ok true ∧
    (∀ t ∈ [({ role := "user", content := some "" } : Turn)],
      t.content = none ∨ t.content = some "") := by
  refine ⟨rfl, ?_⟩
  intro t htm
  simp only [List.mem_singleton] at htm
  subst htm
  exact Or.inr rfl

/-- C9 (amended): the action endpoints validate the base fields through
`extract_base_fields`, rejecting a missing/falsy `conversation_id` or
`channel` with an HTTP 400 carrying a descriptive detail (a client
error). -/
theorem c9_actions_reject_missing_fields
    (payload : List (String × JValue)) :
    (jtruthy (pyGet payload "conversation_id") = false →
      extract_base_fields payload =
        .error (.httpException 400 "conversation_id is required") ∧
      httpStatusOf (.httpException 400 "conversation_id is required") = 400) ∧
    (jtruthy (pyGet payload "conversation_id") = true →
      jtruthy (pyGet payload "channel") = false →
      extract_base_fields payload =
        .error (.httpException 400 "channel is required") ∧
      httpStatusOf (.httpException 400 "channel is required") = 400) ∧
    (jtruthy (pyGet payload "conversation_id") = true →
      jtruthy (pyGet payload "channel") = true →
      extract_base_fields payload =
        .ok (pyGet payload "conversation_id", pyGet payload "channel")) := by
  refine ⟨fun h1 => ⟨?_, rfl⟩, fun h1 h2 => ⟨?_, rfl⟩, fun h1 h2 => ?_⟩
  · simp [extract_base_fields, h1]
  · simp [extract_base_fields, h1, h2]
  · simp [extract_base_fields, h1, h2]

/-- C9 witness: an empty payload is rejected with the 400 client error. -/
theorem c9_actions_reject_missing_fields_witness :
    extract_base_fields [] =
      .error (.httpException 400 "conversation_id is required") :=
  ((c9_actions_reject_missing_fields []).1 rfl).1

/-- C9 counterexample to the claim as stated: the after-call handler reads
`payload["conversation_id"]` directly, so a request missing it raises
`KeyError`, which the global handler surfaces as a 500 internal server
error — not a client-error rejection. -/
theorem c9_after_call_missing_field_is_500 :
    handleAfterCall laOffset
      { conversation_id := none, channel := none,
        conversation_started_at := none, conversation_ended_at := none,
        transcript := none, confirmed_visit := none } "" =
      .error (.keyError "conversation_id") ∧
    httpStatusOf (.keyError "conversation_id") = 500 ∧
    httpStatusOf (.keyError "conversation_id") ≠ 400 := ⟨rfl, rfl, by decide⟩

theorem dateShape_fmtDate {y m d : Nat} (hy : y ≤ 9999) (hm : m ≤ 12)
    (hd : d ≤ 31) : dateShape (fmtDate y m d) = true := by
  simp [dateShape, fmtDate, dateChars, pad4Chars, pad2Chars, toList_mk,
    isDigitChar_digitChar_mod,
    isDigitChar_digitChar (show y / 1000 < 10 by omega),
    isDigitChar_digitChar (show m / 10 < 10 by omega),
    isDigitChar_digitChar (show d / 10 < 10 by omega)]

theorem timeShape_fmtTime {H Mi : Nat} (hH : H ≤ 23) (hMi : Mi ≤ 59) :
    timeShape (fmtTime H Mi) = true := by
  simp [timeShape, fmtTime, timeChars, pad2Chars, toList_mk,
    isDigitChar_digitChar_mod,
    isDigitChar_digitChar (show H / 10 < 10 by omega),
    isDigitChar_digitChar (show Mi / 10 < 10 by omega)]

/-- C10: a high-confidence result re-renders the accepted strings through
strftime, so `visit_date`/`visit_time` are the canonical zero-padded
forms (matching the exact `YYYY-MM-DD` and `HH:MM` shapes) of the parsed
datetime, even when the accepted inputs were non-canonical variants such
as `"2026-1-2"` and `"9:5"`. -/
theorem c10_canonical_rerendering
    (tzoff : Nat → Nat → Nat → Nat → Nat → Int) (ds ts : String) (c : JValue)
    (y m d H Mi : Nat)
    (hpd : parseDate ds = some (y, m, d)) (hpt : parseTime ts = some (H, Mi))
    (hc : jeqStr c "high" = true) :
    (normalize tzoff (.parsed (.jobj
        [("date", .jstr ds), ("time", .jstr ts), ("confidence", c)])) =
      .ok { visit_date := .jstr (fmtDate y m d),
            visit_time := .jstr (fmtTime H Mi),
            visit_datetime_iso :=
              some (isoFormat y m d H Mi 0 (tzoff y m d H Mi)),
            timezone := "America/Los_Angeles", confidence := "high" }) ∧
    dateShape (fmtDate y m d) = true ∧
    timeShape (fmtTime H Mi) = true ∧
    normalize laOffset (.parsed (.jobj
        [("date", .jstr "2026-1-2"), ("time", .jstr "9:5"),
         ("confidence", .jstr "high")])) =
      .ok { visit_date := .jstr "2026-01-02", visit_time := .jstr "09:05",
            visit_datetime_iso := some "2026-01-02T09:05:00-08:00",
            timezone := "America/Los_Angeles", confidence := "high" } := by
  have hb := parseDateChars_bounds hpd
  have ht := parseTimeChars_bounds hpt
  refine ⟨?_, ?_, ?_, rfl⟩
  · rw [normalize_jobj_of_parse tzoff ds ts c hpd hpt, if_pos hc]
  · exact dateShape_fmtDate hb.2.1 hb.2.2.2.1
      (le_trans hb.2.2.2.2.2 (daysInMonth_le y m))
  · exact timeShape_fmtTime ht.1 ht.2

/-- C10 witness at the non-canonical inputs `"2026-1-2"` and `"9:5"`. -/
theorem c10_canonical_rerendering_witness :
    normalize laOffset (.parsed (.jobj
        [("date", .jstr "2026-1-2"), ("time", .jstr "9:5"),
         ("confidence", .jstr "high")])) =
      .ok { visit_date := .jstr (fmtDate 2026 1 2),
            visit_time := .jstr (fmtTime 9 5),
            visit_datetime_iso :=
              some (isoFormat 2026 1 2 9 5 0 (laOffset 2026 1 2 9 5)),
            timezone := "America/Los_Angeles", confidence := "high" } :=
  (c10_canonical_rerendering laOffset "2026-1-2" "9:5" (.jstr "high")
    2026 1 2 9 5 (by decide) (by decide) (by decide)).1

end SalonIbargo
